import Mathlib

/-!
Shallow embedding of the `keep` repository fragment: the AI-assistant
chat service (`keep/api/ai_assistant/`) and the providers service
(`keep/providers/providers_service.py`).

Modelling conventions:
* Python dicts with string keys are association lists.
* Dynamic scope values (`True` / strings) are an explicit sum; the
  Python `is True` identity test holds only of the boolean `true`.
* Python truthiness of an optional string (`if event:`) is explicit:
  it fails for `none` and for the empty string.
* External collaborators (secret-manager backend, provider-plugin
  factory, the plugin's own `validate_scopes`, the OpenAI stream) are
  oracles: their outcomes are parameters of the embedded functions,
  so one run of the model corresponds to one run of the Python code
  with those outcomes.  Database sessions are explicit state records.
* Exceptions are `Except` / returned error options; a raised
  `HTTPException` carries its status code and detail.
-/

namespace Keep

/-- A value stored in a validated-scopes mapping: Python booleans or
strings (error messages).  `is True` holds only of `bool true`. -/
inductive ScopeValue where
  | bool (b : Bool)
  | str (s : String)
deriving DecidableEq, Repr

/-- A validated-scopes dict, as an association list. -/
abbrev ScopeMap := List (String × ScopeValue)

/-- Dict lookup: `validated_scopes[name]` when present. -/
def ScopeMap.lookup (m : ScopeMap) (k : String) : Option ScopeValue :=
  (m.find? (fun kv => kv.1 == k)).map (·.2)

/-- One entry of a provider class's `PROVIDER_SCOPES` declaration. -/
structure ProviderScope where
  name : String
  mandatory : Bool
deriving DecidableEq, Repr

/-- The `detail` payload of a raised `HTTPException`: a message string
or a validated-scopes dict (line 86-89 of providers_service.py). -/
inductive Detail where
  | msg (s : String)
  | scopes (m : ScopeMap)
deriving DecidableEq, Repr

/-- A raised `fastapi.HTTPException`. -/
structure HTTPException where
  status_code : Nat
  detail : Detail
deriving DecidableEq, Repr

/-- Any exception escaping a service call: an `HTTPException` or some
other Python exception carrying its message. -/
inductive ServiceError where
  | http (e : HTTPException)
  | other (s : String)
deriving DecidableEq, Repr

/-- A provider-plugin instance as returned by
`ProvidersFactory.get_provider`: the scope declaration of its class,
the oracle outcome of its `validate_scopes()` call, and its
`is_consumer` flag. -/
structure BaseProvider where
  PROVIDER_SCOPES : List ProviderScope
  validateScopesResult : Except String ScopeMap
  is_consumer : Bool
deriving Repr

namespace ProvidersService

/-- `ProvidersService.validate_scopes` (providers_service.py lines
56-93): run the provider's own scope validation (a raised exception
becomes HTTP 412 with its message); then, when `validate_mandatory`,
if the class declares scopes and the validated dict is non-empty,
every mandatory scope must be present and identically `True`,
otherwise HTTP 412 with the validated dict as detail. -/
def validate_scopes (provider : BaseProvider)
    (validate_mandatory : Bool) : Except HTTPException ScopeMap :=
  match provider.validateScopesResult with
  | .error e => .error ⟨412, .msg e⟩
  | .ok validated_scopes =>
    if validate_mandatory then
      let mandatory_scopes_validated :=
        if !provider.PROVIDER_SCOPES.isEmpty && !validated_scopes.isEmpty then
          provider.PROVIDER_SCOPES.all fun scope =>
            !scope.mandatory ||
              (ScopeMap.lookup validated_scopes scope.name
                == some (.bool true))
        else true
      if mandatory_scopes_validated then .ok validated_scopes
      else .error ⟨412, .scopes validated_scopes⟩
    else .ok validated_scopes

end ProvidersService

/-! ## AI assistant: SSE formatting and conversation storage
(`keep/api/ai_assistant/utils.py`). -/

/-- `MessageRole` (models/ai_assistant.py): a string enum. -/
inductive MessageRole where
  | user
  | assistant
  | system
deriving DecidableEq, Repr

/-- The string value of a `MessageRole` member. -/
def MessageRole.value : MessageRole → String
  | .user => "user"
  | .assistant => "assistant"
  | .system => "system"

/-- `MessageCreateDto`: content and role (metadata omitted: always
`None` in the modelled call sites). -/
structure MessageCreateDto where
  content : String
  role : MessageRole
deriving DecidableEq, Repr

/-- `ConversationCreateDto` as built by
`format_conversation_for_storage` (context omitted: passed through
unchanged and unconstrained by the claims). -/
structure ConversationCreateDto where
  title : Option String
  messages : List MessageCreateDto
deriving DecidableEq, Repr

/-- An incoming message dict with `role` and `content` keys. -/
structure PyMessage where
  role : String
  content : String
deriving DecidableEq, Repr

/-- The title-extraction loop of `format_conversation_for_storage`
(utils.py lines 71-76): first message with role `"user"` gives the
title, truncated to 50 characters with `"..."` appended when longer. -/
def extractTitle : List PyMessage → Option String
  | [] => none
  | msg :: rest =>
    if msg.role == "user" then
      some (msg.content.take 50 ++
        (if msg.content.length > 50 then "..." else ""))
    else extractTitle rest

/-- The role conversion of `format_conversation_for_storage`
(utils.py lines 80-89). -/
def convertRole (role : String) : MessageRole :=
  if role == "user" then .user
  else if role == "assistant" then .assistant
  else .system

/-- `format_conversation_for_storage` (utils.py lines 56-92). -/
def format_conversation_for_storage (messages : List PyMessage) :
    ConversationCreateDto :=
  { title := extractTitle messages
    messages := messages.map fun msg =>
      ⟨msg.content, convertRole msg.role⟩ }

/-- The data argument of `prepare_sse_message`: a string or a dict
(modelled with string values). -/
inductive SSEData where
  | str (s : String)
  | dict (d : List (String × String))
deriving DecidableEq, Repr

/-- JSON string escaping as performed by `json.dumps` on the
characters the model admits. -/
def jsonEscapeChar (c : Char) : String :=
  if c = '\\' then "\\\\"
  else if c = '"' then "\\\""
  else if c = '\n' then "\\n"
  else if c = '\t' then "\\t"
  else String.singleton c

/-- A JSON string literal for `s`. -/
def jsonString (s : String) : String :=
  "\"" ++ String.join (s.toList.map jsonEscapeChar) ++ "\""

/-- `json.dumps` on a string-to-string dict, with its default
separators. -/
def jsonDumps (d : List (String × String)) : String :=
  "\x7b" ++
    String.intercalate ", "
      (d.map fun kv => jsonString kv.1 ++ ": " ++ jsonString kv.2) ++
  "\x7d"

/-- Python truthiness of an optional string: `None` and `""` are
falsy. -/
def pyTruthyStr : Option String → Bool
  | none => false
  | some s => !s.isEmpty

/-- `prepare_sse_message` (utils.py lines 95-122): build the list of
lines (`event:` only for a truthy event, `data:` with the dict
serialized), append two empty strings, join with newlines. -/
def prepare_sse_message (data : SSEData) (event : Option String) :
    String :=
  let message : List String := []
  let message :=
    if pyTruthyStr event then
      message ++ ["event: " ++ event.getD ""]
    else message
  let message :=
    match data with
    | .dict d => message ++ ["data: " ++ jsonDumps d]
    | .str s => message ++ ["data: " ++ s]
  let message := message ++ [""]
  let message := message ++ [""]
  String.intercalate "\n" message

/-! ## AI assistant service (`keep/api/ai_assistant/service.py`). -/

/-- A message row of a conversation as stored in the database: role
string and content, in insertion order. -/
structure StoredMessage where
  role : String
  content : String
deriving DecidableEq, Repr

/-- `add_ai_assistant_message` as used through
`AIAssistantService.add_message`: append the message to the
conversation. -/
def add_ai_assistant_message (conv : List StoredMessage)
    (content : String) (role : MessageRole) : List StoredMessage :=
  conv ++ [⟨role.value, content⟩]

/-- `AIAssistantService.get_chat_history` (service.py lines 176-179):
project every stored message to its role and content, in storage
order. -/
def get_chat_history (conv : List StoredMessage) :
    List (String × String) :=
  conv.map fun msg => (msg.role, msg.content)

/-- The prelude of `AIAssistantService.generate_response` (service.py
lines 181-217): with an uninitialized client, bail out; otherwise
persist the user message, then build the message list handed to the
LLM call from the stored conversation.  Returns the new conversation
state and that message list. -/
def generate_response (clientInitialized : Bool)
    (conv : List StoredMessage) (message : String) :
    Option (List StoredMessage × List (String × String)) :=
  if clientInitialized then
    let conv := add_ai_assistant_message conv message MessageRole.user
    let messages := get_chat_history conv
    some (conv, messages)
  else none

/-- A streamed delta (`chunk.choices[0].delta`). -/
structure Delta where
  content : Option String
deriving DecidableEq, Repr

/-- A streamed chunk with its choice list. -/
structure StreamChunk where
  choices : List Delta
deriving DecidableEq, Repr

/-- The guard `if chunk.choices and chunk.choices[0].delta.content:`
(service.py line 270): the choice list must be non-empty and the
first delta's content truthy (present and non-empty). -/
def chunkContent (chunk : StreamChunk) : Option String :=
  match chunk.choices with
  | [] => none
  | delta :: _ =>
    match delta.content with
    | none => none
    | some s => if s.isEmpty then none else some s

/-- The chunks yielded by the streaming loop for a given stream
outcome. -/
def streamYields (chunks : List StreamChunk) : List String :=
  chunks.filterMap chunkContent

/-- `AIAssistantService._stream_response` (service.py lines 252-286),
as a function from one execution's oracle (the chunks delivered
before the stream ends, and `some e` when an exception with message
`e` is raised after them — a mid-stream failure is the run whose
chunk list is the prefix actually delivered) to the yielded chunks
and the conversation state.  The Python `except` catches every
exception and yields one `"Error: "` chunk, so the model is total. -/
def stream_response (chunks : List StreamChunk) (err : Option String)
    (conv : List StoredMessage) :
    List String × List StoredMessage :=
  match err with
  | some e => (streamYields chunks ++ ["Error: " ++ e], conv)
  | none =>
    let full_response := String.join (streamYields chunks)
    if full_response.isEmpty then (streamYields chunks, conv)
    else
      (streamYields chunks,
        add_ai_assistant_message conv full_response MessageRole.assistant)

/-! ## Providers service: state and operations
(`keep/providers/providers_service.py`). -/

/-- The provider configuration stored as a secret: the json-dumped
dict with `authentication` and `name` keys (modelled structurally,
standing for its serialization). -/
structure ProviderConfig where
  authentication : List (String × String)
  name : String
deriving DecidableEq, Repr

/-- A `Provider` database row (models/db/provider.py, observed
fields). -/
structure Provider where
  id : String
  tenant_id : String
  name : String
  type : String
  installed_by : String
  installation_time : Nat
  configuration_key : String
  validatedScopes : ScopeMap
  consumer : Bool
  provisioned : Bool
  pulling_enabled : Bool
deriving DecidableEq, Repr

/-- A deduplication-rule row, with the fields the providers service
reads. -/
structure DeduplicationRule where
  id : String
  tenant_id : String
  provider_id : String
  provider_type : String
deriving DecidableEq, Repr

/-- The mutable state the providers service acts on: provider rows,
the secret-manager store, deduplication rules, and the ids registered
as event consumers. -/
structure SystemState where
  providers : List Provider
  secrets : List (String × ProviderConfig)
  dedupRules : List DeduplicationRule
  consumers : List String
deriving DecidableEq, Repr

/-- `secret_manager.write_secret`: store (overwrite) a secret. -/
def writeSecret (secrets : List (String × ProviderConfig))
    (name : String) (value : ProviderConfig) :
    List (String × ProviderConfig) :=
  (secrets.filter fun kv => kv.1 != name) ++ [(name, value)]

/-- `secret_manager.delete_secret`: remove a secret. -/
def deleteSecretEntry (secrets : List (String × ProviderConfig))
    (name : String) : List (String × ProviderConfig) :=
  secrets.filter fun kv => kv.1 != name

/-- Look a secret up by name. -/
def lookupSecret (secrets : List (String × ProviderConfig))
    (name : String) : Option ProviderConfig :=
  (secrets.find? fun kv => kv.1 == name).map (·.2)

/-- SQLAlchemy's `one_or_none`: none, the single element, or a raised
`MultipleResultsFound`. -/
def oneOrNone : List α → Except String (Option α)
  | [] => .ok none
  | [a] => .ok (some a)
  | _ => .error "MultipleResultsFound"

/-- The `select(Provider).where(tenant_id == .. and id == ..)`
query. -/
def selectProvider (st : SystemState) (tenant_id provider_id : String) :
    List Provider :=
  st.providers.filter fun p => p.tenant_id == tenant_id && p.id == provider_id

/-- `get_provider_by_name` (core.db): first provider of the tenant
with the given name. -/
def get_provider_by_name (st : SystemState) (tenant_id name : String) :
    Option Provider :=
  st.providers.find? fun p => p.tenant_id == tenant_id && p.name == name

/-- `get_all_provisioned_providers` (core.db): the tenant's rows with
`provisioned` set. -/
def get_all_provisioned_providers (st : SystemState) (tenant_id : String) :
    List Provider :=
  st.providers.filter fun p => p.tenant_id == tenant_id && p.provisioned

/-- `get_all_deduplication_rules_by_provider` (core.db). -/
def get_all_deduplication_rules_by_provider (st : SystemState)
    (tenant_id provider_id provider_type : String) :
    List DeduplicationRule :=
  st.dedupRules.filter fun r =>
    r.tenant_id == tenant_id && r.provider_id == provider_id &&
      r.provider_type == provider_type

/-- `delete_deduplication_rule` (core.db): remove by rule id and
tenant. -/
def delete_deduplication_rule (rules : List DeduplicationRule)
    (rule_id tenant_id : String) : List DeduplicationRule :=
  rules.filter fun r => !(r.id == rule_id && r.tenant_id == tenant_id)

/-- Per-call external outcomes: the hex of `uuid.uuid4()`, the result
of `ProvidersFactory.get_provider` (the plugin instance, or the
message of the exception it raised), and the wall clock
(`time.time()`). -/
structure ProviderEnv where
  uniqueId : String
  factory : Except String BaseProvider
  now : Nat
deriving Repr

/-- Render an exception's message, for re-raising as the detail of an
`HTTPException(400, str(e))`. -/
def Detail.text : Detail → String
  | .msg s => s
  | .scopes _ => "validated scopes"

/-- The `str(e)` of a caught exception. -/
def ServiceError.message : ServiceError → String
  | .http e => toString e.status_code ++ ": " ++ e.detail.text
  | .other s => s

/-- `ProvidersService.prepare_provider` (providers_service.py lines
95-144): `tenant_id` is `None` (rendered `"None"` by the f-string);
instantiate the provider (HTTP 400 on factory failure), optionally
validate scopes, write the configuration secret under
`None_<provider_type>_<uuid4().hex>` — and then delete that very
secret (lines 135-142; the delete succeeding is the normal run)
before returning the provider instance. -/
def ProvidersService.prepare_provider (env : ProviderEnv)
    (provider_id provider_name provider_type : String)
    (provider_config : List (String × String))
    (validateScopesFlag : Bool)
    (secrets : List (String × ProviderConfig)) :
    Except HTTPException (BaseProvider × List (String × ProviderConfig)) :=
  let config : ProviderConfig := ⟨provider_config, provider_name⟩
  let tenant_id := "None"
  match env.factory with
  | .error e => .error ⟨400, .msg e⟩
  | .ok provider =>
    match (if validateScopesFlag then
        ProvidersService.validate_scopes provider true
      else .ok ([] : ScopeMap)) with
    | .error e => .error e
    | .ok _ =>
      let secret_name := tenant_id ++ "_" ++ provider_type ++ "_" ++ env.uniqueId
      let secrets := writeSecret secrets secret_name config
      let secrets := deleteSecretEntry secrets secret_name
      .ok (provider, secrets)

/-- The dict a successful install/update returns (the keys the
callers read: the row and the validated scopes). -/
structure ProviderInfo where
  provider : Provider
  validatedScopes : ScopeMap
deriving DecidableEq, Repr

/-- `ProvidersService.install_provider` (providers_service.py lines
146-227): instantiate (HTTP 400 on failure), validate scopes when
asked (else `{}`), write the secret
`<tenant_id>_<provider_type>_<uuid4().hex>`, insert the new row, and
register it as an event consumer when the plugin is a consumer. -/
def ProvidersService.install_provider (env : ProviderEnv)
    (tenant_id installed_by provider_id provider_name provider_type : String)
    (provider_config : List (String × String))
    (provisioned validateScopesFlag pulling_enabled : Bool)
    (st : SystemState) : Except ServiceError (ProviderInfo × SystemState) :=
  let config : ProviderConfig := ⟨provider_config, provider_name⟩
  match env.factory with
  | .error e => .error (.http ⟨400, .msg e⟩)
  | .ok provider =>
    match (if validateScopesFlag then
        ProvidersService.validate_scopes provider true
      else .ok ([] : ScopeMap)) with
    | .error e => .error (.http e)
    | .ok validated_scopes =>
      let secret_name := tenant_id ++ "_" ++ provider_type ++ "_" ++ env.uniqueId
      let secrets := writeSecret st.secrets secret_name config
      let provider_model : Provider :=
        { id := env.uniqueId
          tenant_id := tenant_id
          name := provider_name
          type := provider_type
          installed_by := installed_by
          installation_time := env.now
          configuration_key := secret_name
          validatedScopes := validated_scopes
          consumer := provider.is_consumer
          provisioned := provisioned
          pulling_enabled := pulling_enabled }
      let providers := st.providers ++ [provider_model]
      let consumers :=
        if provider_model.consumer then st.consumers ++ [provider_model.id]
        else st.consumers
      .ok (⟨provider_model, validated_scopes⟩,
        { st with providers := providers, secrets := secrets,
                  consumers := consumers })

/-- `ProvidersService.update_provider` (providers_service.py lines
229-287): look the row up (404 when absent, 403 when provisioned and
not allowed), pop `pulling_enabled` (string values cast by
lowercasing), re-instantiate (HTTP 400 on failure), run the plugin's
`validate_scopes()` (an exception propagates raw), overwrite the
secret under the existing `configuration_key`, and update the row's
`installed_by`, `validatedScopes` and `pulling_enabled`. -/
def ProvidersService.update_provider (env : ProviderEnv)
    (tenant_id provider_id : String)
    (provider_info : List (String × String))
    (updated_by : String) (allow_provisioned : Bool)
    (st : SystemState) : Except ServiceError (ProviderInfo × SystemState) :=
  match oneOrNone (selectProvider st tenant_id provider_id) with
  | .error e => .error (.other e)
  | .ok none => .error (.http ⟨404, .msg "Provider not found"⟩)
  | .ok (some provider) =>
    if provider.provisioned && !allow_provisioned then
      .error (.http ⟨403, .msg "Cannot update a provisioned provider"⟩)
    else
      let pulling_enabled :=
        match (provider_info.find? fun kv => kv.1 == "pulling_enabled").map (·.2) with
        | none => true
        | some s => s.toLower == "true"
      let provider_info := provider_info.filter fun kv => kv.1 != "pulling_enabled"
      let provider_config : ProviderConfig := ⟨provider_info, provider.name⟩
      match env.factory with
      | .error e => .error (.http ⟨400, .msg e⟩)
      | .ok provider_instance =>
        match provider_instance.validateScopesResult with
        | .error e => .error (.other e)
        | .ok validated_scopes =>
          let secrets :=
            writeSecret st.secrets provider.configuration_key provider_config
          let provider' :=
            { provider with installed_by := updated_by
                            validatedScopes := validated_scopes
                            pulling_enabled := pulling_enabled }
          let providers := st.providers.map fun q =>
            if q.tenant_id == tenant_id && q.id == provider_id then provider'
            else q
          .ok (⟨provider', validated_scopes⟩,
            { st with providers := providers, secrets := secrets })

/-- `ProvidersService.upsert_provider` (providers_service.py lines
289-336): a name already provisioned is updated in place (by
`update_provider`, `updated_by="system"`, `allow_provisioned=True`;
a `None` from `get_provider_by_name` raises `AttributeError` on
`provider.id`); any other name is installed
(`installed_by="system"`).  Every exception of either path is
re-raised as `HTTPException(400, str(e))`. -/
def ProvidersService.upsert_provider (env : ProviderEnv)
    (tenant_id provider_name provider_type : String)
    (provider_config : List (String × String))
    (provisioned validateScopesFlag : Bool)
    (provisioned_providers_names : List String)
    (st : SystemState) : Except HTTPException (ProviderInfo × SystemState) :=
  let result : Except ServiceError (ProviderInfo × SystemState) :=
    if provisioned_providers_names.contains provider_name then
      match get_provider_by_name st tenant_id provider_name with
      | none =>
        .error (.other "AttributeError: NoneType object has no attribute id")
      | some provider =>
        ProvidersService.update_provider env tenant_id provider.id
          provider_config "system" true st
    else
      ProvidersService.install_provider env tenant_id "system" provider_type
        provider_name provider_type provider_config provisioned
        validateScopesFlag true st
  match result with
  | .error e => .error ⟨400, .msg e.message⟩
  | .ok r => .ok r

/-- `ProvidersService.delete_provider` (providers_service.py lines
338-406), state-passing (a raise leaves the state as it was): 404
when no row matches, 403 for a provisioned row without
`allow_provisioned`; otherwise delete the provider's deduplication
rules, its secret, its consumer registration when it is a consumer,
and the row itself.  External cleanup (`provider.clean_up`) and the
caught per-item failures are modelled as the normal successful run. -/
def ProvidersService.delete_provider (tenant_id provider_id : String)
    (allow_provisioned : Bool) (st : SystemState) :
    Option ServiceError × SystemState :=
  match oneOrNone (selectProvider st tenant_id provider_id) with
  | .error e => (some (.other e), st)
  | .ok none => (some (.http ⟨404, .msg "Provider not found"⟩), st)
  | .ok (some provider_model) =>
    if provider_model.provisioned && !allow_provisioned then
      (some (.http ⟨403, .msg "Cannot delete a provisioned provider"⟩), st)
    else
      let rules := get_all_deduplication_rules_by_provider st tenant_id
        provider_model.id provider_model.type
      let dedupRules := rules.foldl
        (fun acc rule => delete_deduplication_rule acc rule.id tenant_id)
        st.dedupRules
      let secrets := deleteSecretEntry st.secrets provider_model.configuration_key
      let consumers :=
        if provider_model.consumer then
          st.consumers.filter fun c => c != provider_model.id
        else st.consumers
      let providers := st.providers.filter fun p =>
        !(p.tenant_id == tenant_id && p.id == provider_id)
      (none, { providers := providers, secrets := secrets,
               dedupRules := dedupRules, consumers := consumers })

/-- `ProvidersService.validate_provider_scopes` (providers_service.py
lines 408-435): look the row up (404 when absent), read its secret
and re-instantiate (external; `env.factory` is the oracle), run the
plugin's `validate_scopes()`, and only when the result differs from
the stored `validatedScopes` update that field and commit.  The
boolean of the result records whether `session.commit()` ran. -/
def ProvidersService.validate_provider_scopes (env : ProviderEnv)
    (tenant_id provider_id : String) (st : SystemState) :
    Except ServiceError ScopeMap × SystemState × Bool :=
  match oneOrNone (selectProvider st tenant_id provider_id) with
  | .error e => (.error (.other e), st, false)
  | .ok none => (.error (.http ⟨404, .msg "Provider not found"⟩), st, false)
  | .ok (some provider) =>
    match env.factory with
    | .error e => (.error (.other e), st, false)
    | .ok provider_instance =>
      match provider_instance.validateScopesResult with
      | .error e => (.error (.other e), st, false)
      | .ok validated_scopes =>
        if validated_scopes = provider.validatedScopes then
          (.ok validated_scopes, st, false)
        else
          let provider' := { provider with validatedScopes := validated_scopes }
          let providers := st.providers.map fun q =>
            if q.tenant_id == tenant_id && q.id == provider_id then provider'
            else q
          (.ok validated_scopes, { st with providers := providers }, true)

/-- One provider gathered from `KEEP_PROVIDERS` or from a YAML file
in `KEEP_PROVIDERS_DIRECTORY`: its name and type when present, its
`authentication` dict, and the per-call external outcomes. -/
structure IncomingSpec where
  name : Option String
  type : Option String
  authentication : List (String × String)
  env : ProviderEnv
deriving Repr

/-- The names collected into `incoming_providers_names`: every
incoming provider whose name is known (added before any further
check, so even failed upserts contribute). -/
def incomingNames (specs : List IncomingSpec) : List String :=
  specs.filterMap (·.name)

/-- One iteration of the provisioning loop of `provision_providers`:
skip a nameless or typeless entry, otherwise upsert (`provisioned=True`,
`validate_scopes=False`) and on failure log and continue with the
state unchanged.  The subsequent deduplication-rule provisioning
delegates to the external `provision_deduplication_rules` and does not
touch provider rows. -/
def ProvidersService.provisionStep (tenant_id : String)
    (provisioned_providers_names : List String)
    (st : SystemState) (spec : IncomingSpec) : SystemState :=
  match spec.name with
  | none => st
  | some provider_name =>
    match spec.type with
    | none => st
    | some provider_type =>
      match ProvidersService.upsert_provider spec.env tenant_id provider_name
          provider_type spec.authentication true false
          provisioned_providers_names st with
      | .error _ => st
      | .ok (_, st') => st'

/-- The deletion stage of `provision_providers` (lines 717-735):
every previously provisioned provider whose name is not among the
incoming names is deleted with `allow_provisioned=True`; a failure is
logged and skipped. -/
def ProvidersService.deleteStale (tenant_id : String)
    (incoming : List String) (provisioned_providers : List Provider)
    (st : SystemState) : SystemState :=
  provisioned_providers.foldl
    (fun st provider =>
      if incoming.contains provider.name then st
      else (ProvidersService.delete_provider tenant_id provider.id true st).2)
    st

/-- `ProvidersService.provision_providers` (providers_service.py
lines 549-746) for a run whose configured sources parse into `specs`:
snapshot the provisioned providers and their names, upsert each
incoming provider, then delete the stale provisioned providers. -/
def ProvidersService.provision_providers (tenant_id : String)
    (specs : List IncomingSpec) (st : SystemState) : SystemState :=
  let provisioned_providers := get_all_provisioned_providers st tenant_id
  let provisioned_providers_names := provisioned_providers.map (·.name)
  let st := specs.foldl
    (ProvidersService.provisionStep tenant_id provisioned_providers_names) st
  ProvidersService.deleteStale tenant_id (incomingNames specs)
    provisioned_providers st

/-! ## Theorems -/

/-- A `List.all` over implications equals the negation of a
`List.any` over the offending elements. -/
theorem all_imp_eq_not_any (l : List ProviderScope) (f : ProviderScope → Bool) :
    (l.all fun s => !s.mandatory || f s) =
      !(l.any fun s => s.mandatory && !f s) := by
  induction l with
  | nil => rfl
  | cons a l ih =>
    cases hm : a.mandatory <;> cases hf : f a <;>
      simp [List.all_cons, List.any_cons, hm, hf, ih]

/-- Characterization of `validate_scopes` with mandatory validation
when the plugin's own validation succeeds. -/
theorem validate_scopes_true_eq (p : BaseProvider) (m : ScopeMap)
    (hm : p.validateScopesResult = .ok m) :
    ProvidersService.validate_scopes p true =
      (if (!p.PROVIDER_SCOPES.isEmpty && !m.isEmpty &&
          (p.PROVIDER_SCOPES.any fun scope =>
            scope.mandatory &&
              !(ScopeMap.lookup m scope.name == some (.bool true))))
       then .error ⟨412, .scopes m⟩ else .ok m) := by
  simp only [ProvidersService.validate_scopes, hm]
  rw [all_imp_eq_not_any]
  cases hA : (!p.PROVIDER_SCOPES.isEmpty) <;> cases hB : (!m.isEmpty) <;>
    cases hAny : (p.PROVIDER_SCOPES.any fun scope =>
        scope.mandatory &&
          !(ScopeMap.lookup m scope.name == some (.bool true))) <;>
      simp [hA, hB, hAny]

/-- C5: with `validate_mandatory = true`, `ProvidersService.validate_scopes`
raises HTTP 412 when the provider's own scope validation raises, or when
the provider declares scopes, the validated mapping is non-empty, and
some mandatory scope is missing from it or mapped to a value other than
`True`; in every other case it returns the validated mapping unchanged. -/
theorem validate_scopes_spec (p : BaseProvider) :
    (∀ e, p.validateScopesResult = .error e →
      ProvidersService.validate_scopes p true = .error ⟨412, .msg e⟩) ∧
    (∀ m, p.validateScopesResult = .ok m →
      ((!p.PROVIDER_SCOPES.isEmpty && !m.isEmpty &&
          (p.PROVIDER_SCOPES.any fun scope =>
            scope.mandatory &&
              !(ScopeMap.lookup m scope.name == some (.bool true)))) = true →
        ProvidersService.validate_scopes p true = .error ⟨412, .scopes m⟩) ∧
      ((!p.PROVIDER_SCOPES.isEmpty && !m.isEmpty &&
          (p.PROVIDER_SCOPES.any fun scope =>
            scope.mandatory &&
              !(ScopeMap.lookup m scope.name == some (.bool true)))) = false →
        ProvidersService.validate_scopes p true = .ok m)) := by
  refine ⟨fun e he => by simp [ProvidersService.validate_scopes, he],
    fun m hm => ?_⟩
  have hc := validate_scopes_true_eq p m hm
  refine ⟨fun h => ?_, fun h => ?_⟩
  · rw [hc]; simp [h]
  · rw [hc]; simp [h]

/-- C5 witness: a provider with one mandatory scope that validates to
`True` passes mandatory validation. -/
theorem validate_scopes_spec_witness :
    ProvidersService.validate_scopes
      ⟨[⟨"read", true⟩], .ok [("read", ScopeValue.bool true)], false⟩ true =
      .ok [("read", ScopeValue.bool true)] :=
  ((validate_scopes_spec
      ⟨[⟨"read", true⟩], .ok [("read", ScopeValue.bool true)], false⟩).2
    [("read", ScopeValue.bool true)] rfl).2 (by decide)

/-- C6 counterexample: with the empty string as the event name — an
event name is given — `prepare_sse_message` emits no `event:` line,
against the claim's "exactly when an event name is given". -/
theorem prepare_sse_message_empty_event_cex :
    prepare_sse_message (SSEData.str "hello") (some "") = "data: hello\n\n" ∧
    prepare_sse_message (SSEData.str "hello") (some "") ≠
      "event: " ++ "" ++ "\n" ++ "data: " ++ "hello" ++ "\n" ++ "\n" := by
  constructor
  · rfl
  · decide

/-- C6 (amended): the result is the `event:` line exactly when a
non-empty event name is given, then the `data:` line with the dict
payload JSON-serialized, the whole string terminated by two
newlines. -/
theorem prepare_sse_message_spec (data : SSEData) (event : Option String) :
    prepare_sse_message data event =
      (if pyTruthyStr event then "event: " ++ event.getD "" ++ "\n" else "") ++
        "data: " ++
        (match data with
         | SSEData.dict d => jsonDumps d
         | SSEData.str s => s) ++ "\n" ++ "\n" := by
  cases data <;> cases hev : pyTruthyStr event <;>
    simp [prepare_sse_message, hev, String.intercalate, String.intercalate.go,
      String.append_assoc, String.append_empty, String.empty_append,
      show ∀ x : String, ("\n" : String) ++ ("data: " ++ x) = "\ndata: " ++ x
        from fun x => by
          have h2 : ("\n" : String) ++ "data: " = "\ndata: " := by decide
          rw [← String.append_assoc, h2]]

/-- C7: `generate_response` with an initialized client first persists
the incoming message to the conversation with role USER, and the
message list handed to the LLM API is exactly the stored conversation
projected to role and content, in storage order, ending with the
just-added user message. -/
theorem generate_response_spec (conv : List StoredMessage) (message : String) :
    ∃ conv' sent,
      generate_response true conv message = some (conv', sent) ∧
      conv' = conv ++ [⟨MessageRole.user.value, message⟩] ∧
      sent = conv'.map (fun m => (m.role, m.content)) ∧
      sent.getLast? = some (MessageRole.user.value, message) := by
  refine ⟨_, _, rfl, rfl, rfl, ?_⟩
  simp [get_chat_history, add_ai_assistant_message]

/-- The title loop equals `find?` of the first user-role message. -/
theorem extractTitle_eq_find (messages : List PyMessage) :
    extractTitle messages =
      (messages.find? fun m => m.role == "user").map (fun m =>
        m.content.take 50 ++
          (if m.content.length > 50 then "..." else "")) := by
  induction messages with
  | nil => rfl
  | cons a l ih =>
    by_cases h : a.role = "user"
    · simp [extractTitle, List.find?_cons, h]
    · have hb : (a.role == "user") = false := by simp [h]
      simp [extractTitle, List.find?_cons, hb, ih]

/-- C8: `format_conversation_for_storage` titles the conversation by
the first user message (absent one the title is `None`), truncating
to 50 characters with `"..."` exactly when longer, and converts the
messages preserving content and order with roles `user`/`assistant`
mapped to USER/ASSISTANT and anything else to SYSTEM. -/
theorem format_conversation_for_storage_spec (messages : List PyMessage) :
    (format_conversation_for_storage messages).title =
      (messages.find? fun m => m.role == "user").map (fun m =>
        m.content.take 50 ++
          (if m.content.length > 50 then "..." else "")) ∧
    (format_conversation_for_storage messages).messages =
      messages.map (fun m =>
        ⟨m.content,
          if m.role = "user" then MessageRole.user
          else if m.role = "assistant" then MessageRole.assistant
          else MessageRole.system⟩) := by
  constructor
  · simpa [format_conversation_for_storage] using extractTitle_eq_find messages
  · simp only [format_conversation_for_storage]
    refine List.map_congr_left fun m _ => ?_
    simp [convertRole]

/-- C1: a successful run of `prepare_provider` leaves the
secret-manager state WITHOUT the provider-configuration secret it
wrote: the code deletes the secret `None_grafana_abc123` right after
writing it (providers_service.py lines 135-142), so only the
pre-existing unrelated secret survives and the new one reads back as
`none`. -/
theorem prepare_provider_deletes_secret :
    ProvidersService.prepare_provider
        ⟨"abc123", .ok ⟨[], .ok [], false⟩, 0⟩
        "prov-id" "my-provider" "grafana" [("api_key", "k")] true
        [("other", ⟨[("a", "b")], "x"⟩)] =
      .ok (⟨[], .ok [], false⟩, [("other", ⟨[("a", "b")], "x"⟩)]) ∧
    lookupSecret [("other", ⟨[("a", "b")], "x"⟩)] "None_grafana_abc123" =
      none := ⟨rfl, rfl⟩

/-- C9: when the LLM stream completes without error, the
concatenation of the yielded chunks is exactly the content of the
assistant message persisted at the end, and nothing is persisted when
that concatenation is empty; when an error occurs, the yields are the
normal chunks followed by one chunk of the form `"Error: " ++ rest`
and the conversation is left unchanged (the model is a total
function: the generator's `except` swallows the exception). -/
theorem stream_response_spec (chunks : List StreamChunk)
    (conv : List StoredMessage) :
    (∀ ys conv', stream_response chunks none conv = (ys, conv') →
      (String.join ys ≠ "" →
        conv' = conv ++ [⟨MessageRole.assistant.value, String.join ys⟩]) ∧
      (String.join ys = "" → conv' = conv)) ∧
    (∀ e, ∃ pre rest,
      stream_response chunks (some e) conv = (pre ++ ["Error: " ++ rest], conv)) := by
  constructor
  · intro ys conv' h
    simp only [stream_response] at h
    split at h
    case isTrue hemp =>
      cases h
      have hz : String.join (streamYields chunks) = "" :=
        (String.isEmpty_iff _).1 hemp
      exact ⟨fun hne => absurd hz hne, fun _ => rfl⟩
    case isFalse hemp =>
      cases h
      have hne : String.join (streamYields chunks) ≠ "" := fun hh =>
        hemp ((String.isEmpty_iff _).2 hh)
      exact ⟨fun _ => rfl, fun hh => absurd hh hne⟩
  · intro e
    exact ⟨streamYields chunks, e, rfl⟩

/-- C9 witness: one streamed chunk `"hi"` is persisted as the
assistant message `"hi"`. -/
theorem stream_response_spec_witness :
    ([⟨"assistant", "hi"⟩] : List StoredMessage) =
      [] ++ [⟨MessageRole.assistant.value, String.join ["hi"]⟩] :=
  ((stream_response_spec [⟨[⟨some "hi"⟩]⟩] []).1 ["hi"] [⟨"assistant", "hi"⟩]
    (by rfl)).1 (by decide)

/-- C10: `validate_provider_scopes` commits exactly when the newly
validated scopes differ from the stored ones; on equality the state
is unchanged, on difference only the found row's `validatedScopes`
field changes, and in every outcome secrets, deduplication rules and
consumer registrations are untouched. -/
theorem validate_provider_scopes_spec (env : ProviderEnv) (t i : String)
    (st : SystemState) (p : Provider) (inst : BaseProvider)
    (validated : ScopeMap)
    (hp : selectProvider st t i = [p])
    (hf : env.factory = .ok inst)
    (hv : inst.validateScopesResult = .ok validated) :
    (validated = p.validatedScopes →
      ProvidersService.validate_provider_scopes env t i st =
        (.ok validated, st, false)) ∧
    (validated ≠ p.validatedScopes →
      ProvidersService.validate_provider_scopes env t i st =
        (.ok validated,
          { st with providers := st.providers.map fun q =>
              if q.tenant_id == t && q.id == i then
                { q with validatedScopes := validated }
              else q },
          true)) ∧
    (∀ res st' committed,
      ProvidersService.validate_provider_scopes env t i st =
        (res, st', committed) →
      st'.secrets = st.secrets ∧ st'.dedupRules = st.dedupRules ∧
        st'.consumers = st.consumers) := by
  have hq : ∀ q ∈ st.providers, (q.tenant_id == t && q.id == i) = true → q = p := by
    intro q hqmem hqpred
    have hmem : q ∈ selectProvider st t i := List.mem_filter.2 ⟨hqmem, hqpred⟩
    rw [hp] at hmem
    simpa using hmem
  have hone : oneOrNone (selectProvider st t i) = .ok (some p) := by rw [hp]; rfl
  refine ⟨fun heq => ?_, fun hne => ?_, fun res st' committed h => ?_⟩
  · simp only [ProvidersService.validate_provider_scopes, hone, hf, hv]
    simp [heq]
  · simp only [ProvidersService.validate_provider_scopes, hone, hf, hv]
    rw [if_neg hne]
    have hmap : (st.providers.map fun q =>
        if q.tenant_id == t && q.id == i then
          { p with validatedScopes := validated } else q) =
        st.providers.map fun q =>
          if q.tenant_id == t && q.id == i then
            { q with validatedScopes := validated } else q :=
      List.map_congr_left fun q hqm => by
        by_cases hpred : (q.tenant_id == t && q.id == i) = true
        · rw [if_pos hpred, if_pos hpred, hq q hqm hpred]
        · rw [if_neg (by simp [hpred]), if_neg (by simp [hpred])]
    rw [hmap]
  · simp only [ProvidersService.validate_provider_scopes, hone, hf, hv] at h
    split at h <;> (cases h; exact ⟨rfl, rfl, rfl⟩)

/-- A sample provider row for concrete instantiations. -/
def sampleRow : Provider :=
  { id := "1", tenant_id := "t", name := "grafana-main", type := "grafana",
    installed_by := "alice", installation_time := 0,
    configuration_key := "t_grafana_1", validatedScopes := [],
    consumer := false, provisioned := false, pulling_enabled := true }

/-- A sample state holding only `sampleRow` and its secret. -/
def sampleState : SystemState :=
  { providers := [sampleRow],
    secrets := [("t_grafana_1", ⟨[("u", "v")], "grafana-main"⟩)],
    dedupRules := [⟨"r1", "t", "1", "grafana"⟩],
    consumers := [] }

/-- A sample per-call environment whose plugin validates one scope. -/
def sampleEnv : ProviderEnv :=
  ⟨"2", .ok ⟨[], .ok [("read", ScopeValue.bool true)], false⟩, 7⟩

/-- C10 witness: validating `sampleRow` (stored scopes empty) against
a plugin returning one validated scope updates the row and commits. -/
theorem validate_provider_scopes_spec_witness :
    ProvidersService.validate_provider_scopes sampleEnv "t" "1" sampleState =
      (.ok [("read", ScopeValue.bool true)],
        { sampleState with providers := sampleState.providers.map fun q =>
            if q.tenant_id == "t" && q.id == "1" then
              { q with validatedScopes := [("read", ScopeValue.bool true)] }
            else q },
        true) :=
  (validate_provider_scopes_spec sampleEnv "t" "1" sampleState sampleRow
      ⟨[], .ok [("read", ScopeValue.bool true)], false⟩
      [("read", ScopeValue.bool true)]
      (by decide) rfl rfl).2.1 (by decide)

/-- `one_or_none` returning an element means the query matched
exactly that singleton. -/
theorem oneOrNone_eq_some {α} {l : List α} {a : α}
    (h : oneOrNone l = .ok (some a)) : l = [a] := by
  cases l with
  | nil => simp [oneOrNone] at h
  | cons x xs =>
    cases xs with
    | nil => simp [oneOrNone] at h; rw [h]
    | cons y ys => simp [oneOrNone] at h

/-- Dissection of a successful `update_provider`: the matched row,
the plugin instance and its validated scopes, plus how the state
changed (row replaced in place, secret overwritten under the
existing key, deduplication rules and consumers untouched). -/
theorem update_provider_ok_shape {env : ProviderEnv} {t i : String}
    {d : List (String × String)} {ub : String} {allow : Bool}
    {st : SystemState} {info : ProviderInfo} {st' : SystemState}
    (h : ProvidersService.update_provider env t i d ub allow st =
      .ok (info, st')) :
    ∃ p inst validated pe,
      selectProvider st t i = [p] ∧
      env.factory = .ok inst ∧
      inst.validateScopesResult = .ok validated ∧
      info.provider = { p with
        installed_by := ub
        validatedScopes := validated
        pulling_enabled := pe } ∧
      info.validatedScopes = validated ∧
      st'.providers = st.providers.map (fun q =>
        if q.tenant_id == t && q.id == i then info.provider else q) ∧
      st'.secrets = writeSecret st.secrets p.configuration_key
        ⟨d.filter fun kv => kv.1 != "pulling_enabled", p.name⟩ ∧
      st'.dedupRules = st.dedupRules ∧ st'.consumers = st.consumers := by
  unfold ProvidersService.update_provider at h
  cases hsel : oneOrNone (selectProvider st t i) with
  | error e => simp [hsel] at h
  | ok o =>
    cases o with
    | none => simp [hsel] at h
    | some p =>
      simp only [hsel] at h
      by_cases hprov : (p.provisioned && !allow) = true
      · rw [if_pos hprov] at h; simp at h
      · rw [if_neg hprov] at h
        cases hf : env.factory with
        | error e => simp [hf] at h
        | ok inst =>
          simp only [hf] at h
          cases hv : inst.validateScopesResult with
          | error e => simp [hv] at h
          | ok validated =>
            simp only [hv] at h
            rw [Except.ok.injEq, Prod.mk.injEq] at h
            obtain ⟨hinfo, hst⟩ := h
            subst hinfo
            subst hst
            exact ⟨p, inst, validated, _, oneOrNone_eq_some hsel, rfl, hv,
              rfl, rfl, rfl, rfl, rfl, rfl⟩

/-- Dissection of a successful `install_provider`: the plugin
instance, the new row's exact contents, and how the state changed
(row appended, secret written under the fresh key, consumer
registered exactly when the plugin is a consumer). -/
theorem install_provider_ok_shape {env : ProviderEnv}
    {t ib pid pname pty : String} {cfg : List (String × String)}
    {prov vsf pe : Bool} {st : SystemState} {info : ProviderInfo}
    {st' : SystemState}
    (h : ProvidersService.install_provider env t ib pid pname pty cfg
      prov vsf pe st = .ok (info, st')) :
    ∃ inst validated,
      env.factory = .ok inst ∧
      info.provider = {
        id := env.uniqueId
        tenant_id := t
        name := pname
        type := pty
        installed_by := ib
        installation_time := env.now
        configuration_key := t ++ "_" ++ pty ++ "_" ++ env.uniqueId
        validatedScopes := validated
        consumer := inst.is_consumer
        provisioned := prov
        pulling_enabled := pe } ∧
      info.validatedScopes = validated ∧
      st'.providers = st.providers ++ [info.provider] ∧
      st'.secrets = writeSecret st.secrets
        (t ++ "_" ++ pty ++ "_" ++ env.uniqueId) ⟨cfg, pname⟩ ∧
      st'.dedupRules = st.dedupRules ∧
      st'.consumers = (if inst.is_consumer then st.consumers ++ [env.uniqueId]
        else st.consumers) := by
  unfold ProvidersService.install_provider at h
  cases hf : env.factory with
  | error e => simp [hf] at h
  | ok inst =>
    simp only [hf] at h
    cases hval : (if vsf then ProvidersService.validate_scopes inst true
        else .ok ([] : ScopeMap)) with
    | error e => simp [hval] at h
    | ok validated =>
      simp only [hval] at h
      rw [Except.ok.injEq, Prod.mk.injEq] at h
      obtain ⟨hinfo, hst⟩ := h
      subst hinfo
      subst hst
      exact ⟨inst, validated, rfl, rfl, rfl, rfl, rfl, rfl, rfl⟩

/-- C2: an `upsert_provider` of a name among the provisioned names is
exactly an in-place `update_provider` (`updated_by="system"`,
`allow_provisioned=True`) of the provider found by name, creating no
new row; any other name is an `install_provider`
(`installed_by="system"`) appending the new row; and every exception
of either path surfaces as an `HTTPException` with status 400. -/
theorem upsert_provider_spec (env : ProviderEnv) (t name ty : String)
    (cfg : List (String × String)) (prov vsf : Bool)
    (names : List String) (st : SystemState) :
    (∀ e, ProvidersService.upsert_provider env t name ty cfg prov vsf
        names st = .error e → e.status_code = 400) ∧
    (names.contains name = true →
      ∀ info st', ProvidersService.upsert_provider env t name ty cfg prov
          vsf names st = .ok (info, st') →
        ∃ p, get_provider_by_name st t name = some p ∧
          ProvidersService.update_provider env t p.id cfg "system" true st =
            .ok (info, st') ∧
          st'.providers.length = st.providers.length ∧
          info.provider.installed_by = "system") ∧
    (names.contains name = false →
      ∀ info st', ProvidersService.upsert_provider env t name ty cfg prov
          vsf names st = .ok (info, st') →
        ProvidersService.install_provider env t "system" ty name ty cfg
          prov vsf true st = .ok (info, st') ∧
        st'.providers = st.providers ++ [info.provider] ∧
        info.provider.installed_by = "system" ∧
        info.provider.provisioned = prov) := by
  refine ⟨fun e h => ?_, fun hc info st' h => ?_, fun hc info st' h => ?_⟩
  · simp only [ProvidersService.upsert_provider] at h
    by_cases hc : names.contains name = true
    · rw [if_pos hc] at h
      cases hg : get_provider_by_name st t name with
      | none => simp only [hg] at h; injection h with h'; rw [← h']
      | some p =>
        simp only [hg] at h
        cases hu : ProvidersService.update_provider env t p.id cfg
            "system" true st with
        | error e' => simp only [hu] at h; injection h with h'; rw [← h']
        | ok r => simp only [hu] at h; simp at h
    · rw [if_neg hc] at h
      cases hi : ProvidersService.install_provider env t "system" ty name
          ty cfg prov vsf true st with
      | error e' => simp only [hi] at h; injection h with h'; rw [← h']
      | ok r => simp only [hi] at h; simp at h
  · simp only [ProvidersService.upsert_provider, if_pos hc] at h
    cases hg : get_provider_by_name st t name with
    | none => simp only [hg] at h; simp at h
    | some p =>
      simp only [hg] at h
      cases hu : ProvidersService.update_provider env t p.id cfg
          "system" true st with
      | error e' => simp only [hu] at h; simp at h
      | ok r =>
        simp only [hu] at h
        rw [Except.ok.injEq] at h
        subst h
        obtain ⟨p', inst, validated, pe, _, _, _, hinfo, _, hprovs, _, _, _⟩ :=
          update_provider_ok_shape hu
        refine ⟨p, rfl, hu, ?_, ?_⟩
        · rw [hprovs, List.length_map]
        · rw [hinfo]
  · have hnc : ¬(names.contains name = true) := fun hh => by
      rw [hc] at hh; cases hh
    simp only [ProvidersService.upsert_provider, if_neg hnc] at h
    cases hi : ProvidersService.install_provider env t "system" ty name
        ty cfg prov vsf true st with
    | error e' => simp only [hi] at h; simp at h
    | ok r =>
      simp only [hi] at h
      rw [Except.ok.injEq] at h
      subst h
      obtain ⟨inst, validated, _, hinfo, _, hprovs, _, _, _⟩ :=
        install_provider_ok_shape hi
      exact ⟨rfl, hprovs, by rw [hinfo], by rw [hinfo]⟩

/-- The state after the C2 witness run: `sampleRow` updated in place
by the system. -/
def updatedSampleState : SystemState :=
  { providers := [{ sampleRow with
      installed_by := "system"
      validatedScopes := [("read", ScopeValue.bool true)] }]
    secrets := [("t_grafana_1", ⟨[("api_key", "k")], "grafana-main"⟩)]
    dedupRules := [⟨"r1", "t", "1", "grafana"⟩]
    consumers := [] }

/-- The info dict of the C2 witness run. -/
def updatedSampleInfo : ProviderInfo :=
  ⟨{ sampleRow with
      installed_by := "system"
      validatedScopes := [("read", ScopeValue.bool true)] },
    [("read", ScopeValue.bool true)]⟩

/-- C2 witness: upserting the already-provisioned `grafana-main`
keeps the provider count and stamps `installed_by = "system"`. -/
theorem upsert_provider_spec_witness :
    updatedSampleState.providers.length = sampleState.providers.length ∧
    updatedSampleInfo.provider.installed_by = "system" := by
  obtain ⟨p, hg, hu, hlen, hib⟩ :=
    (upsert_provider_spec sampleEnv "t" "grafana-main" "grafana"
        [("api_key", "k")] true false ["grafana-main"] sampleState).2.1
      (by decide) updatedSampleInfo updatedSampleState (by rfl)
  exact ⟨hlen, hib⟩

/-- Folding per-rule deletions over a rule list removes exactly the
rows sharing an id (and the tenant) with some rule of the list. -/
theorem foldl_delete_eq_filter_any (S : List DeduplicationRule) (t : String)
    (l : List DeduplicationRule) :
    S.foldl (fun acc rule => delete_deduplication_rule acc rule.id t) l =
      l.filter (fun r => !(S.any fun s => r.id == s.id && r.tenant_id == t)) := by
  induction S generalizing l with
  | nil => simp
  | cons s S ih =>
    simp only [List.foldl_cons]
    rw [ih]
    simp only [delete_deduplication_rule, List.filter_filter]
    congr 1
    funext r
    simp only [List.any_cons, Bool.not_or]
    cases hs : (r.id == s.id && r.tenant_id == t) <;>
      cases hS : (S.any fun x => r.id == x.id && r.tenant_id == t) <;> simp [hs, hS]

/-- With distinct rule ids, deleting the rules
`get_all_deduplication_rules_by_provider` returns removes exactly the
provider's rules. -/
theorem delete_rules_eq (st : SystemState) (t pid pty : String)
    (hnodup : (st.dedupRules.map (·.id)).Nodup) :
    (get_all_deduplication_rules_by_provider st t pid pty).foldl
      (fun acc rule => delete_deduplication_rule acc rule.id t)
      st.dedupRules =
    st.dedupRules.filter (fun r =>
      !(r.tenant_id == t && r.provider_id == pid && r.provider_type == pty)) := by
  rw [foldl_delete_eq_filter_any]
  apply List.filter_congr
  intro r hr
  congr 1
  by_cases hmatch :
      (r.tenant_id == t && r.provider_id == pid && r.provider_type == pty) = true
  · rw [hmatch]
    apply List.any_eq_true.2
    refine ⟨r, List.mem_filter.2 ⟨hr, hmatch⟩, ?_⟩
    have ht : (r.tenant_id == t) = true := by
      have := hmatch
      simp only [Bool.and_eq_true] at this
      exact this.1.1
    simp [ht]
  · have hm' : (r.tenant_id == t && r.provider_id == pid &&
        r.provider_type == pty) = false := by
      cases hx : (r.tenant_id == t && r.provider_id == pid &&
          r.provider_type == pty) with
      | false => rfl
      | true => exact absurd hx hmatch
    rw [hm']
    cases hany : (get_all_deduplication_rules_by_provider st t pid pty).any
        (fun s => r.id == s.id && r.tenant_id == t) with
    | false => rfl
    | true =>
      exfalso
      obtain ⟨s, hsmem, hsid⟩ := List.any_eq_true.1 hany
      have hsrules := List.mem_filter.1 hsmem
      have hid : r.id = s.id := by
        simp only [Bool.and_eq_true, beq_iff_eq] at hsid
        exact hsid.1
      have hrs : r = s :=
        List.inj_on_of_nodup_map hnodup hr hsrules.1 (by rw [hid])
      rw [hrs] at hm'
      rw [hsrules.2] at hm'
      cases hm'

/-- C4: `delete_provider` raises 404 exactly when no row of the
tenant has the given id; a provisioned row without `allow_provisioned`
raises 403 with the state untouched; otherwise the call succeeds and
removes the row, its secret, its deduplication rules, and its
consumer registration when it was a consumer (rule ids assumed
distinct, as database primary keys). -/
theorem delete_provider_spec (t i : String) (a : Bool) (st : SystemState)
    (hrules : (st.dedupRules.map (·.id)).Nodup) :
    ((∃ d, (ProvidersService.delete_provider t i a st).1 =
        some (.http ⟨404, d⟩)) ↔
      ¬ ∃ q ∈ st.providers, q.tenant_id = t ∧ q.id = i) ∧
    (∀ p, selectProvider st t i = [p] → p.provisioned = true → a = false →
      ProvidersService.delete_provider t i a st =
        (some (.http ⟨403, .msg "Cannot delete a provisioned provider"⟩), st)) ∧
    (∀ p, selectProvider st t i = [p] → (p.provisioned && !a) = false →
      ProvidersService.delete_provider t i a st =
        (none,
          { providers := st.providers.filter fun q =>
              !(q.tenant_id == t && q.id == i)
            secrets := st.secrets.filter fun kv =>
              kv.1 != p.configuration_key
            dedupRules := st.dedupRules.filter fun r =>
              !(r.tenant_id == t && r.provider_id == p.id &&
                r.provider_type == p.type)
            consumers := if p.consumer then
                st.consumers.filter fun c => c != p.id
              else st.consumers })) := by
  have hnomem : (selectProvider st t i = []) ↔
      ¬ ∃ q ∈ st.providers, q.tenant_id = t ∧ q.id = i := by
    rw [selectProvider, List.filter_eq_nil_iff]
    constructor
    · rintro hall ⟨q, hq, hqt, hqi⟩
      exact hall q hq (by simp [hqt, hqi])
    · intro hnone q hq hpred
      rw [Bool.and_eq_true] at hpred
      exact hnone ⟨q, hq, by simpa using hpred.1, by simpa using hpred.2⟩
  refine ⟨?_, fun p hp hprov ha => ?_, fun p hp hok => ?_⟩
  · constructor
    · rintro ⟨d, hd⟩
      rw [← hnomem]
      cases hsel : selectProvider st t i with
      | nil => rfl
      | cons x xs =>
        exfalso
        cases xs with
        | nil =>
          simp only [ProvidersService.delete_provider, hsel, oneOrNone] at hd
          by_cases hb : (x.provisioned && !a) = true
          · rw [if_pos hb] at hd
            simp at hd
          · rw [if_neg hb] at hd
            simp at hd
        | cons y ys =>
          simp only [ProvidersService.delete_provider, hsel, oneOrNone] at hd
          simp at hd
    · intro hno
      have hsel : selectProvider st t i = [] := hnomem.2 hno
      refine ⟨.msg "Provider not found", ?_⟩
      simp [ProvidersService.delete_provider, hsel, oneOrNone]
  · have hone : oneOrNone (selectProvider st t i) = .ok (some p) := by
      rw [hp]; rfl
    have hb : (p.provisioned && !a) = true := by rw [hprov, ha]; rfl
    simp only [ProvidersService.delete_provider, hone]
    rw [if_pos hb]
  · have hone : oneOrNone (selectProvider st t i) = .ok (some p) := by
      rw [hp]; rfl
    simp only [ProvidersService.delete_provider, hone]
    rw [if_neg (by rw [hok]; exact Bool.false_ne_true)]
    rw [delete_rules_eq st t p.id p.type hrules]
    rfl

/-- C4 witness: deleting the non-provisioned `sampleRow` removes its
row, secret, deduplication rule, and (vacuously) consumer entry. -/
theorem delete_provider_spec_witness :
    ProvidersService.delete_provider "t" "1" false sampleState =
      (none,
        { providers := sampleState.providers.filter fun q =>
            !(q.tenant_id == "t" && q.id == "1")
          secrets := sampleState.secrets.filter fun kv =>
            kv.1 != sampleRow.configuration_key
          dedupRules := sampleState.dedupRules.filter fun r =>
            !(r.tenant_id == "t" && r.provider_id == sampleRow.id &&
              r.provider_type == sampleRow.type)
          consumers := if sampleRow.consumer then
              sampleState.consumers.filter fun c => c != sampleRow.id
            else sampleState.consumers }) :=
  (delete_provider_spec "t" "1" false sampleState (by decide)).2.2 sampleRow
    (by decide) (by decide)

/-- Left component of a true boolean conjunction. -/
theorem bandLeft {a b : Bool} (h : (a && b) = true) : a = true := by
  cases a with
  | true => rfl
  | false => cases h

/-- Right component of a true boolean conjunction. -/
theorem bandRight {a b : Bool} (h : (a && b) = true) : b = true := by
  cases b with
  | true => rfl
  | false => cases a <;> cases h

/-- Replacing the (tenant, j)-row in place does not change the
(tenant, i)-selection for a different id `i`. -/
theorem selP_map_update {l : List Provider} {t i j : String} {pnew : Provider}
    (hne : i ≠ j) (hpnewid : pnew.id = j) :
    ((l.map fun q => if q.tenant_id == t && q.id == j then pnew else q).filter
        fun q => q.tenant_id == t && q.id == i) =
      l.filter (fun q => q.tenant_id == t && q.id == i) := by
  induction l with
  | nil => rfl
  | cons x xs ih =>
    have hji : (j == i) = false := beq_eq_false_iff_ne.2 (Ne.symm hne)
    simp only [List.map_cons]
    by_cases hx : (x.tenant_id == t && x.id == j) = true
    · rw [if_pos hx]
      have hxj : x.id = j := by simpa using bandRight hx
      have hpn : (pnew.tenant_id == t && pnew.id == i) = false := by
        rw [hpnewid]
        cases hq : (pnew.tenant_id == t) <;> simp [hji]
      have hxf : (x.tenant_id == t && x.id == i) = false := by
        rw [hxj]
        cases hq : (x.tenant_id == t) <;> simp [hji]
      rw [List.filter_cons, List.filter_cons, hpn, hxf]
      simpa using ih
    · rw [if_neg hx, List.filter_cons, List.filter_cons, ih]

/-- The in-place replacement keeps the list of row ids. -/
theorem ids_map_update {l : List Provider} {t j : String} {pnew : Provider}
    (hid : pnew.id = j) :
    ((l.map fun q => if q.tenant_id == t && q.id == j then pnew else q).map
      (·.id)) = l.map (·.id) := by
  rw [List.map_map]
  apply List.map_congr_left
  intro q hq
  show (if q.tenant_id == t && q.id == j then pnew else q).id = q.id
  by_cases hx : (q.tenant_id == t && q.id == j) = true
  · have hqj : q.id = j := by simpa using bandRight hx
    rw [if_pos hx, hid, hqj]
  · rw [if_neg hx]

/-- The in-place replacement keeps the presence of a (tenant, i)-row,
when the new row keeps tenant and id. -/
theorem hasRow_map_update {l : List Provider} {t i j : String}
    {pnew : Provider} (hten : pnew.tenant_id = t) (hid : pnew.id = j)
    (h : ∃ q ∈ l, q.tenant_id = t ∧ q.id = i) :
    ∃ q ∈ (l.map fun q => if q.tenant_id == t && q.id == j then pnew else q),
      q.tenant_id = t ∧ q.id = i := by
  obtain ⟨q, hq, hqt, hqi⟩ := h
  by_cases hx : (q.tenant_id == t && q.id == j) = true
  · refine ⟨pnew, List.mem_map.2 ⟨q, hq, by rw [if_pos hx]⟩, hten, ?_⟩
    have hqj : q.id = j := by simpa using bandRight hx
    rw [hid, ← hqj, hqi]
  · exact ⟨q, List.mem_map.2 ⟨q, hq, by rw [if_neg hx]⟩, hqt, hqi⟩

/-- A filter returns the singleton of a present match when every
match equals it and the list has no duplicates. -/
theorem filter_eq_singleton_of_mem {α} {l : List α} {pr : α → Bool} {a : α}
    (hnd : l.Nodup) (ha : a ∈ l) (hpa : pr a = true)
    (huniq : ∀ q ∈ l, pr q = true → q = a) : l.filter pr = [a] := by
  induction l with
  | nil => cases ha
  | cons x xs ih =>
    rcases List.mem_cons.1 ha with hax | haxs
    · subst hax
      rw [List.filter_cons, if_pos hpa]
      have hxs : xs.filter pr = [] := by
        rw [List.filter_eq_nil_iff]
        intro q hq hpq
        have hqa : q = a := huniq q (List.mem_cons_of_mem _ hq) hpq
        exact (List.nodup_cons.1 hnd).1 (hqa ▸ hq)
      rw [hxs]
    · have hxa : pr x = false := by
        cases hpx : pr x with
        | false => rfl
        | true =>
          exfalso
          have hxa' : x = a := huniq x (List.mem_cons_self x xs) hpx
          exact (List.nodup_cons.1 hnd).1 (hxa' ▸ haxs)
      rw [List.filter_cons, hxa]
      exact ih (List.nodup_cons.1 hnd).2 haxs
        (fun q hq hpq => huniq q (List.mem_cons_of_mem _ hq) hpq)

/-- A successful `upsert_provider` is a successful `update_provider`
of the row found by name (name already provisioned) or a successful
`install_provider` (new name). -/
theorem upsert_provider_ok_cases {env : ProviderEnv}
    {t name ty : String} {cfg : List (String × String)} {prov vsf : Bool}
    {names : List String} {st : SystemState} {info : ProviderInfo}
    {st' : SystemState}
    (h : ProvidersService.upsert_provider env t name ty cfg prov vsf names
      st = .ok (info, st')) :
    (∃ r, get_provider_by_name st t name = some r ∧
      ProvidersService.update_provider env t r.id cfg "system" true st =
        .ok (info, st')) ∨
    ProvidersService.install_provider env t "system" ty name ty cfg prov
      vsf true st = .ok (info, st') := by
  simp only [ProvidersService.upsert_provider] at h
  by_cases hc : names.contains name = true
  · rw [if_pos hc] at h
    cases hg : get_provider_by_name st t name with
    | none => simp only [hg] at h; simp at h
    | some r =>
      simp only [hg] at h
      cases hu : ProvidersService.update_provider env t r.id cfg
          "system" true st with
      | error e' => simp only [hu] at h; simp at h
      | ok x =>
        simp only [hu] at h
        rw [Except.ok.injEq] at h
        subst h
        exact Or.inl ⟨r, rfl, hu⟩
  · rw [if_neg hc] at h
    cases hi : ProvidersService.install_provider env t "system" ty name
        ty cfg prov vsf true st with
    | error e' => simp only [hi] at h; simp at h
    | ok x =>
      simp only [hi] at h
      rw [Except.ok.injEq] at h
      subst h
      exact Or.inr rfl

/-- `delete_provider` never adds provider rows. -/
theorem delete_provider_providers_subset (t i : String) (a : Bool)
    (st : SystemState) :
    ∀ q ∈ (ProvidersService.delete_provider t i a st).2.providers,
      q ∈ st.providers := by
  intro q hq
  unfold ProvidersService.delete_provider at hq
  cases hsel : oneOrNone (selectProvider st t i) with
  | error e => simp only [hsel] at hq; exact hq
  | ok o =>
    cases o with
    | none => simp only [hsel] at hq; exact hq
    | some pm =>
      simp only [hsel] at hq
      by_cases hb : (pm.provisioned && !a) = true
      · rw [if_pos hb] at hq; exact hq
      · rw [if_neg hb] at hq
        exact (List.mem_filter.1 hq).1

/-- The deletion stage never adds provider rows. -/
theorem deleteStale_providers_subset (t : String) (incoming : List String)
    (stale : List Provider) (st : SystemState) :
    ∀ q ∈ (ProvidersService.deleteStale t incoming stale st).providers,
      q ∈ st.providers := by
  induction stale generalizing st with
  | nil => intro q hq; exact hq
  | cons p rest ih =>
    intro q hq
    simp only [ProvidersService.deleteStale, List.foldl_cons] at hq ⊢
    by_cases hc : (incoming.contains p.name) = true
    · rw [if_pos hc] at hq
      exact ih st q hq
    · rw [if_neg hc] at hq
      exact delete_provider_providers_subset t p.id true st _
        (ih _ q hq)

/-- One provisioning-loop iteration keeps row ids duplicate-free,
introduces at most the fresh uuid as a new id, leaves every
(tenant, id)-selection of a row whose name is not the spec's name
untouched, and preserves the presence of any (tenant, id)-row. -/
theorem provisionStep_preserves (t : String) (names : List String)
    (st1 : SystemState) (spec : IncomingSpec)
    (hids : (st1.providers.map (·.id)).Nodup)
    (hfresh : ∀ q ∈ st1.providers, q.id ≠ spec.env.uniqueId) :
    ((ProvidersService.provisionStep t names st1 spec).providers.map
      (·.id)).Nodup ∧
    (∀ jj, jj ∈ (ProvidersService.provisionStep t names st1 spec).providers.map
        (·.id) →
      jj ∈ st1.providers.map (·.id) ∨ jj = spec.env.uniqueId) ∧
    (∀ p, (∀ n, spec.name = some n → p.name ≠ n) →
      selectProvider st1 t p.id = [p] →
      selectProvider (ProvidersService.provisionStep t names st1 spec) t
        p.id = [p]) ∧
    (∀ i', (∃ q ∈ st1.providers, q.tenant_id = t ∧ q.id = i') →
      ∃ q ∈ (ProvidersService.provisionStep t names st1 spec).providers,
        q.tenant_id = t ∧ q.id = i') := by
  cases hname : spec.name with
  | none =>
    simp only [ProvidersService.provisionStep, hname]
    exact ⟨hids, fun jj h => Or.inl h, fun p _ h => h, fun i' h => h⟩
  | some n =>
    cases htype : spec.type with
    | none =>
      simp only [ProvidersService.provisionStep, hname, htype]
      exact ⟨hids, fun jj h => Or.inl h, fun p _ h => h, fun i' h => h⟩
    | some ty =>
      simp only [ProvidersService.provisionStep, hname, htype]
      cases hup : ProvidersService.upsert_provider spec.env t n ty
          spec.authentication true false names st1 with
      | error e =>
        simp only [hup]
        exact ⟨hids, fun jj h => Or.inl h, fun p _ h => h, fun i' h => h⟩
      | ok r =>
        obtain ⟨info, st'⟩ := r
        simp only [hup]
        rcases upsert_provider_ok_cases hup with ⟨rrow, hg, hu⟩ | hi
        · obtain ⟨p', inst, validated, pe, hsel', hfac, hval, hinfo, hvs,
            hprovs, hsec, hded, hcons⟩ := update_provider_ok_shape hu
          have hg' : st1.providers.find?
              (fun p => p.tenant_id == t && p.name == n) = some rrow := hg
          have hrmem : rrow ∈ st1.providers := List.mem_of_find?_eq_some hg'
          have hrpred' := List.find?_some hg'
          have hrpred : (rrow.tenant_id == t && rrow.name == n) = true :=
            hrpred'
          have hrn : rrow.name = n := by simpa using bandRight hrpred
          have hp'mem : p' ∈ selectProvider st1 t rrow.id := by
            rw [hsel']; exact List.mem_cons_self _ _
          have hp'pred : (p'.tenant_id == t && p'.id == rrow.id) = true :=
            (List.mem_filter.1 hp'mem).2
          have hpid : info.provider.id = rrow.id := by
            rw [hinfo]
            simpa using bandRight hp'pred
          have hpten : info.provider.tenant_id = t := by
            rw [hinfo]
            simpa using bandLeft hp'pred
          refine ⟨?_, ?_, ?_, ?_⟩
          · rw [hprovs, ids_map_update hpid]; exact hids
          · intro jj hjj
            rw [hprovs, ids_map_update hpid] at hjj
            exact Or.inl hjj
          · intro p hpn hselp
            have hne : p.id ≠ rrow.id := by
              intro heq
              have hrin : rrow ∈ selectProvider st1 t p.id := by
                apply List.mem_filter.2
                refine ⟨hrmem, ?_⟩
                rw [Bool.and_eq_true]
                exact ⟨bandLeft hrpred, beq_iff_eq.2 heq.symm⟩
              rw [hselp] at hrin
              have hreq : rrow = p := by simpa using hrin
              exact hpn n rfl (by rw [← hreq, hrn])
            show (st'.providers.filter fun q =>
              q.tenant_id == t && q.id == p.id) = [p]
            rw [hprovs, selP_map_update hne hpid]
            exact hselp
          · intro i' hpres
            rw [hprovs]
            exact hasRow_map_update hpten hpid hpres
        · obtain ⟨inst, validated, hfac, hinfo, hvs, hprovs, hsec, hded,
            hcons⟩ := install_provider_ok_shape hi
          have hrid : info.provider.id = spec.env.uniqueId := by rw [hinfo]
          have hrten : info.provider.tenant_id = t := by rw [hinfo]
          have hufresh : spec.env.uniqueId ∉ st1.providers.map (·.id) := by
            intro hmem
            obtain ⟨q, hq, hqid⟩ := List.mem_map.1 hmem
            exact hfresh q hq hqid
          refine ⟨?_, ?_, ?_, ?_⟩
          · rw [hprovs, List.map_append, List.nodup_append]
            refine ⟨hids, List.nodup_singleton _, ?_⟩
            intro x hx hx'
            have hxe : x = info.provider.id := by simpa using hx'
            rw [hxe, hrid] at hx
            exact hufresh hx
          · intro jj hjj
            rw [hprovs, List.map_append] at hjj
            rcases List.mem_append.1 hjj with h1 | h2
            · exact Or.inl h1
            · right
              have hje : jj = info.provider.id := by simpa using h2
              rw [hje, hrid]
          · intro p hpn hselp
            have hpmem : p ∈ st1.providers := by
              have hpm : p ∈ selectProvider st1 t p.id := by
                rw [hselp]; exact List.mem_cons_self _ _
              exact (List.mem_filter.1 hpm).1
            have hpu : p.id ≠ spec.env.uniqueId := hfresh p hpmem
            show (st'.providers.filter fun q =>
              q.tenant_id == t && q.id == p.id) = [p]
            rw [hprovs, List.filter_append]
            have hrow : ([info.provider].filter fun q =>
                q.tenant_id == t && q.id == p.id) = [] := by
              have hne : (info.provider.id == p.id) = false :=
                beq_eq_false_iff_ne.2 (by rw [hrid]; exact Ne.symm hpu)
              have hpredr : (info.provider.tenant_id == t &&
                  info.provider.id == p.id) = false := by
                cases hq : (info.provider.tenant_id == t) <;> simp [hne]
              simp [List.filter_cons, hpredr]
            rw [hrow, List.append_nil]
            exact hselp
          · intro i' hpres
            obtain ⟨q, hq, hqt, hqi⟩ := hpres
            exact ⟨q, by rw [hprovs]; exact List.mem_append_left _ hq,
              hqt, hqi⟩

/-- The whole provisioning loop: ids stay duplicate-free, the
(tenant, id)-selection of any row whose name is not among the
incoming names is untouched, and presence of (tenant, id)-rows is
preserved. -/
theorem provisionFold_preserves (t : String) (names : List String)
    (specs : List IncomingSpec) (st1 : SystemState)
    (hids : (st1.providers.map (·.id)).Nodup)
    (hfresh : ∀ spec ∈ specs, ∀ q ∈ st1.providers, q.id ≠ spec.env.uniqueId)
    (hdist : (specs.map (·.env.uniqueId)).Nodup) :
    ((specs.foldl (ProvidersService.provisionStep t names) st1).providers.map
      (·.id)).Nodup ∧
    (∀ p, p.name ∉ incomingNames specs → selectProvider st1 t p.id = [p] →
      selectProvider
        (specs.foldl (ProvidersService.provisionStep t names) st1) t
        p.id = [p]) ∧
    (∀ i', (∃ q ∈ st1.providers, q.tenant_id = t ∧ q.id = i') →
      ∃ q ∈ (specs.foldl (ProvidersService.provisionStep t names)
          st1).providers,
        q.tenant_id = t ∧ q.id = i') := by
  induction specs generalizing st1 with
  | nil => exact ⟨hids, fun p _ h => h, fun i' h => h⟩
  | cons spec rest ih =>
    simp only [List.foldl_cons]
    obtain ⟨hids2, hsup, hsel2, hpres2⟩ := provisionStep_preserves t names
      st1 spec hids (hfresh spec (List.mem_cons_self _ _))
    have hfresh2 : ∀ s ∈ rest,
        ∀ q ∈ (ProvidersService.provisionStep t names st1 spec).providers,
          q.id ≠ s.env.uniqueId := by
      intro s hs q hq heq
      rcases hsup q.id (List.mem_map_of_mem _ hq) with hold | hnew
      · obtain ⟨q0, hq0, hq0id⟩ := List.mem_map.1 hold
        exact hfresh s (List.mem_cons_of_mem _ hs) q0 hq0 (by rw [hq0id, heq])
      · apply (List.nodup_cons.1 hdist).1
        have heq2 : spec.env.uniqueId = s.env.uniqueId := by rw [← hnew, heq]
        show spec.env.uniqueId ∈ rest.map (fun x => x.env.uniqueId)
        rw [heq2]
        exact List.mem_map_of_mem _ hs
    obtain ⟨ihn, ihsel, ihpres⟩ :=
      ih (ProvidersService.provisionStep t names st1 spec) hids2 hfresh2
        (List.nodup_cons.1 hdist).2
    refine ⟨ihn, ?_, ?_⟩
    · intro p hpn hselp
      have hpn_head : ∀ n, spec.name = some n → p.name ≠ n := by
        intro n hn heq
        apply hpn
        show p.name ∈ incomingNames (spec :: rest)
        simp only [incomingNames, List.filterMap_cons, hn]
        rw [heq]
        exact List.mem_cons_self _ _
      have hpn_rest : p.name ∉ incomingNames rest := by
        intro hmem
        apply hpn
        show p.name ∈ incomingNames (spec :: rest)
        simp only [incomingNames, List.filterMap_cons]
        cases hn : spec.name with
        | none => exact hmem
        | some m => exact List.mem_cons_of_mem _ hmem
      exact ihsel p hpn_rest (hsel2 p hpn_head hselp)
    · intro i' hpres
      exact ihpres i' (hpres2 i' hpres)

/-- Unfolding one iteration of the deletion stage. -/
theorem deleteStale_cons (t : String) (incoming : List String)
    (p : Provider) (rest : List Provider) (st : SystemState) :
    ProvidersService.deleteStale t incoming (p :: rest) st =
      ProvidersService.deleteStale t incoming rest
        (if incoming.contains p.name then st
         else (ProvidersService.delete_provider t p.id true st).2) := by
  simp only [ProvidersService.deleteStale, List.foldl_cons]

/-- With `allow_provisioned` and a unique matching row, the deletion
keeps exactly the rows not matching (tenant, id). -/
theorem delete_provider_allow_providers {t i : String} {st : SystemState}
    {p : Provider} (hp : selectProvider st t i = [p]) :
    (ProvidersService.delete_provider t i true st).2.providers =
      st.providers.filter fun q => !(q.tenant_id == t && q.id == i) := by
  have hone : oneOrNone (selectProvider st t i) = .ok (some p) := by
    rw [hp]; rfl
  have hb : (p.provisioned && !true) = false := by
    cases p.provisioned <;> rfl
  simp only [ProvidersService.delete_provider, hone]
  rw [if_neg (by rw [hb]; exact Bool.false_ne_true)]

/-- The deletion stage removes every stale provider's (tenant, id)-row
and keeps any (tenant, id)-row whose id no deleted provider carries. -/
theorem deleteStale_spec (t : String) (incoming : List String)
    (stale : List Provider) (st2 : SystemState)
    (hpair : stale.Pairwise (fun a b => a.id ≠ b.id))
    (hsel : ∀ p ∈ stale, p.name ∉ incoming →
      selectProvider st2 t p.id = [p]) :
    (∀ p ∈ stale, p.name ∉ incoming →
      ∀ q ∈ (ProvidersService.deleteStale t incoming stale st2).providers,
        ¬(q.tenant_id = t ∧ q.id = p.id)) ∧
    (∀ i', (∀ p ∈ stale, p.name ∉ incoming → p.id ≠ i') →
      (∃ q ∈ st2.providers, q.tenant_id = t ∧ q.id = i') →
      ∃ q ∈ (ProvidersService.deleteStale t incoming stale st2).providers,
        q.tenant_id = t ∧ q.id = i') := by
  induction stale generalizing st2 with
  | nil =>
    exact ⟨fun p hp => absurd hp (List.not_mem_nil p), fun i' _ h => h⟩
  | cons p rest ih =>
    rw [deleteStale_cons]
    by_cases hc : incoming.contains p.name = true
    · rw [if_pos hc]
      have hmem : p.name ∈ incoming := by simpa using hc
      obtain ⟨ih1, ih2⟩ := ih st2 (List.pairwise_cons.1 hpair).2
        (fun p' hp' hnp' => hsel p' (List.mem_cons_of_mem _ hp') hnp')
      refine ⟨?_, ?_⟩
      · intro p' hp' hnp' q hq
        rcases List.mem_cons.1 hp' with rfl | hp'rest
        · exact absurd hmem hnp'
        · exact ih1 p' hp'rest hnp' q hq
      · intro i' hcond hpres
        exact ih2 i' (fun p'' h => hcond p'' (List.mem_cons_of_mem _ h))
          hpres
    · rw [if_neg hc]
      have hnmem : p.name ∉ incoming := by
        intro hm
        exact hc (by simpa using hm)
      have hselp := hsel p (List.mem_cons_self _ _) hnmem
      have hD := delete_provider_allow_providers hselp
      have hpairrest := (List.pairwise_cons.1 hpair).2
      have hpairhead := (List.pairwise_cons.1 hpair).1
      -- selections of the remaining stale rows are untouched
      have hsel' : ∀ p' ∈ rest, p'.name ∉ incoming →
          selectProvider
            (ProvidersService.delete_provider t p.id true st2).2 t
            p'.id = [p'] := by
        intro p' hp' hnp'
        show ((ProvidersService.delete_provider t p.id true
          st2).2.providers.filter fun q =>
            q.tenant_id == t && q.id == p'.id) = [p']
        rw [hD, List.filter_filter]
        have hne : p'.id ≠ p.id := Ne.symm (hpairhead p' hp')
        have hcongr : ∀ q ∈ st2.providers,
            ((q.tenant_id == t && q.id == p'.id) &&
              !(q.tenant_id == t && q.id == p.id)) =
            (q.tenant_id == t && q.id == p'.id) := by
          intro q _
          by_cases hsq : (q.tenant_id == t && q.id == p'.id) = true
          · have hqid : q.id = p'.id := by simpa using bandRight hsq
            have hqp : (q.id == p.id) = false :=
              beq_eq_false_iff_ne.2 (by rw [hqid]; exact hne)
            have hqpred : (q.tenant_id == t && q.id == p.id) = false := by
              cases hq : (q.tenant_id == t) <;> simp [hqp]
            rw [hsq, hqpred]
            rfl
          · have hsq' : (q.tenant_id == t && q.id == p'.id) = false := by
              cases hx : (q.tenant_id == t && q.id == p'.id) with
              | false => rfl
              | true => exact absurd hx hsq
            rw [hsq']
            rfl
        rw [List.filter_congr hcongr]
        exact hsel p' (List.mem_cons_of_mem _ hp') hnp'
      obtain ⟨ih1, ih2⟩ := ih
        (ProvidersService.delete_provider t p.id true st2).2 hpairrest hsel'
      refine ⟨?_, ?_⟩
      · intro p' hp' hnp' q hq
        rcases List.mem_cons.1 hp' with rfl | hp'rest
        · -- head: q survives the deletion fold, so it is in the filtered
          -- state, whose predicate excludes (t, p'.id)
          have hq2 := deleteStale_providers_subset t incoming rest _ q hq
          rw [hD] at hq2
          have hqpred := (List.mem_filter.1 hq2).2
          rintro ⟨hqt, hqi⟩
          have : (q.tenant_id == t && q.id == p'.id) = true := by
            rw [Bool.and_eq_true]
            exact ⟨beq_iff_eq.2 hqt, beq_iff_eq.2 hqi⟩
          rw [this] at hqpred
          cases hqpred
        · exact ih1 p' hp'rest hnp' q hq
      · intro i' hcond hpres
        have hpid : p.id ≠ i' := hcond p (List.mem_cons_self _ _) hnmem
        obtain ⟨q, hq, hqt, hqi⟩ := hpres
        have hqD : q ∈ (ProvidersService.delete_provider t p.id true
            st2).2.providers := by
          rw [hD]
          apply List.mem_filter.2
          refine ⟨hq, ?_⟩
          have hqp : (q.id == p.id) = false :=
            beq_eq_false_iff_ne.2 (by rw [hqi]; exact Ne.symm hpid)
          have : (q.tenant_id == t && q.id == p.id) = false := by
            cases hx : (q.tenant_id == t) <;> simp [hqp]
          rw [this]
          rfl
        exact ih2 i' (fun p'' h => hcond p'' (List.mem_cons_of_mem _ h))
          ⟨q, hqD, hqt, hqi⟩

/-- C3: after `provision_providers`, every provider that was marked
provisioned for the tenant before the call and whose name is not among
the incoming names has no (tenant, id)-row left — it was deleted by
the final stage (which passes `allow_provisioned=True`) — while no
previously provisioned provider whose name is among the incoming
names loses its row.  Hypotheses: row ids are distinct (primary
keys), and the `uuid4` hex values of the run are fresh and pairwise
distinct. -/
theorem provision_providers_stale_spec (t : String)
    (specs : List IncomingSpec) (st : SystemState)
    (hids : (st.providers.map (·.id)).Nodup)
    (hfresh : ∀ spec ∈ specs, ∀ q ∈ st.providers, q.id ≠ spec.env.uniqueId)
    (hdist : (specs.map (·.env.uniqueId)).Nodup) :
    (∀ p ∈ st.providers, p.provisioned = true → p.tenant_id = t →
      p.name ∉ incomingNames specs →
      ∀ q ∈ (ProvidersService.provision_providers t specs st).providers,
        ¬(q.tenant_id = t ∧ q.id = p.id)) ∧
    (∀ p ∈ st.providers, p.provisioned = true → p.tenant_id = t →
      p.name ∈ incomingNames specs →
      ∃ q ∈ (ProvidersService.provision_providers t specs st).providers,
        q.tenant_id = t ∧ q.id = p.id) := by
  have hunfold : ProvidersService.provision_providers t specs st =
      ProvidersService.deleteStale t (incomingNames specs)
        (get_all_provisioned_providers st t)
        (specs.foldl (ProvidersService.provisionStep t
          ((get_all_provisioned_providers st t).map (·.name))) st) := rfl
  obtain ⟨hids2, hsel2, hpres2⟩ := provisionFold_preserves t
    ((get_all_provisioned_providers st t).map (·.name)) specs st hids
    hfresh hdist
  have hnd : st.providers.Nodup := List.Nodup.of_map _ hids
  have hinj := List.inj_on_of_nodup_map hids
  have hstale_pair : (get_all_provisioned_providers st t).Pairwise
      (fun a b => a.id ≠ b.id) :=
    (List.pairwise_map.1 hids).sublist (List.filter_sublist _)
  have hmem_stale : ∀ p ∈ st.providers, p.provisioned = true →
      p.tenant_id = t → p ∈ get_all_provisioned_providers st t := by
    intro p hp hprov ht
    apply List.mem_filter.2
    refine ⟨hp, ?_⟩
    rw [Bool.and_eq_true]
    exact ⟨beq_iff_eq.2 ht, hprov⟩
  have hselp0 : ∀ p ∈ st.providers, p.tenant_id = t →
      selectProvider st t p.id = [p] := by
    intro p hp ht
    apply filter_eq_singleton_of_mem hnd hp
    · rw [Bool.and_eq_true]
      exact ⟨beq_iff_eq.2 ht, beq_iff_eq.2 rfl⟩
    · intro q hq hpred
      have hqid : q.id = p.id := by simpa using bandRight hpred
      exact hinj hq hp hqid
  have hselstale : ∀ p ∈ get_all_provisioned_providers st t,
      p.name ∉ incomingNames specs →
      selectProvider (specs.foldl (ProvidersService.provisionStep t
        ((get_all_provisioned_providers st t).map (·.name))) st) t
        p.id = [p] := by
    intro p hp hnp
    have hpmem : p ∈ st.providers := (List.mem_filter.1 hp).1
    have hpt : p.tenant_id = t := by
      simpa using bandLeft (List.mem_filter.1 hp).2
    exact hsel2 p hnp (hselp0 p hpmem hpt)
  obtain ⟨hdel, hkeep⟩ := deleteStale_spec t (incomingNames specs)
    (get_all_provisioned_providers st t)
    (specs.foldl (ProvidersService.provisionStep t
      ((get_all_provisioned_providers st t).map (·.name))) st)
    hstale_pair hselstale
  constructor
  · intro p hp hprov ht hnp q hq
    rw [hunfold] at hq
    exact hdel p (hmem_stale p hp hprov ht) hnp q hq
  · intro p hp hprov ht hinc
    rw [hunfold]
    refine hkeep p.id ?_ (hpres2 p.id ⟨p, hp, ht, rfl⟩)
    intro p'' hp'' hnp'' heq
    have hp''mem : p'' ∈ st.providers := (List.mem_filter.1 hp'').1
    have hpe : p'' = p := hinj hp''mem hp heq
    rw [hpe] at hnp''
    exact hnp'' hinc

/-- Stale provisioned row for the C3 witness. -/
def c3RowA : Provider :=
  { id := "1", tenant_id := "t", name := "a", type := "ty",
    installed_by := "sys", installation_time := 0,
    configuration_key := "k1", validatedScopes := [],
    consumer := false, provisioned := true, pulling_enabled := true }

/-- Provisioned row whose name stays incoming, for the C3 witness. -/
def c3RowB : Provider :=
  { id := "2", tenant_id := "t", name := "b", type := "ty",
    installed_by := "sys", installation_time := 0,
    configuration_key := "k2", validatedScopes := [],
    consumer := false, provisioned := true, pulling_enabled := true }

/-- Initial state of the C3 witness run. -/
def c3State : SystemState :=
  { providers := [c3RowA, c3RowB], secrets := [], dedupRules := [],
    consumers := [] }

/-- Incoming provisioning specs of the C3 witness run: only `b`. -/
def c3Specs : List IncomingSpec :=
  [⟨some "b", some "ty", [], ⟨"99", .ok ⟨[], .ok [], false⟩, 0⟩⟩]

/-- The only row surviving the C3 witness run: `b`, updated by the
system. -/
def c3FinalRow : Provider := { c3RowB with installed_by := "system" }

/-- C3 witness: in the concrete run that provisions only `b`, the
surviving row is not a (tenant `t`, id `1`) row — provider `a` was
deleted. -/
theorem provision_providers_stale_spec_witness :
    ¬(c3FinalRow.tenant_id = "t" ∧ c3FinalRow.id = "1") :=
  (provision_providers_stale_spec "t" c3Specs c3State (by decide)
      (by decide) (by decide)).1 c3RowA (by decide) (by decide) (by decide)
    (by decide) c3FinalRow (by decide)

end Keep
